import Mathlib

/-!
Formal model of the GMDC importer (`gmdc_blender/blender_import.py`).

Vectors and quaternions use exact rational arithmetic in place of the
floating-point arithmetic of `mathutils`; `Quaternion * Vector` is the
standard sandwich rotation that `mathutils` implements for unit
quaternions.  Blender scene state (meshes, objects, vertex groups) is
modelled explicitly: mesh creation is a record of what the `bpy` calls
populate, and vertex-group weight assignment with mode ADD is recorded
as a list of additive weight events.
-/

/-- A 3-component vector with exact rational coordinates,
modelling `mathutils.Vector`. -/
structure Vec3 where
  x : ℚ
  y : ℚ
  z : ℚ
deriving DecidableEq, Repr

instance : Add Vec3 :=
  ⟨fun a b => ⟨a.x + b.x, a.y + b.y, a.z + b.z⟩⟩

instance : Sub Vec3 :=
  ⟨fun a b => ⟨a.x - b.x, a.y - b.y, a.z - b.z⟩⟩

/-- Scalar multiple of a vector. -/
def Vec3.smul (c : ℚ) (v : Vec3) : Vec3 :=
  ⟨c * v.x, c * v.y, c * v.z⟩

/-- Cross product of two vectors. -/
def Vec3.cross (a b : Vec3) : Vec3 :=
  ⟨a.y * b.z - a.z * b.y, a.z * b.x - a.x * b.z, a.x * b.y - a.y * b.x⟩

/-- A quaternion `(w, x, y, z)`, w-first as in `mathutils.Quaternion`
and in the GMDC bone records. -/
structure Quat where
  w : ℚ
  x : ℚ
  y : ℚ
  z : ℚ
deriving DecidableEq, Repr

/-- Rotation of a vector by a (unit) quaternion: the meaning of
`rot * trans` in `import_skeleton` (mathutils `Quaternion * Vector`).
For `q = (w, u)` this is `v + w*t + u × t` with `t = 2 (u × v)`. -/
def rotate (q : Quat) (v : Vec3) : Vec3 :=
  let u : Vec3 := ⟨q.x, q.y, q.z⟩
  let t := Vec3.smul 2 (Vec3.cross u v)
  v + Vec3.smul q.w t + Vec3.cross u t

/-- Modelled from the spec: `BoneData` records produced by the missing
`bone_data` module (`BoneData.build_bones`).  Per the spec data model a
bone record carries a name, a local translation, a w-first local
rotation quaternion and an optional parent index referring to an
earlier bone in the table. -/
structure BoneData where
  name : String
  position : Vec3
  rotation : Quat
  parent : Option Nat
deriving DecidableEq, Repr

/-- The custom properties `import_skeleton` stores on each edit bone
(`tX tY tZ` from `bonedata.position`, `rW rX rY rZ` from
`bonedata.rotation`) for exporting later. -/
structure BoneProps where
  tX : ℚ
  tY : ℚ
  tZ : ℚ
  rW : ℚ
  rX : ℚ
  rY : ℚ
  rZ : ℚ
deriving DecidableEq, Repr

/-- An armature edit bone as `import_skeleton` leaves it: head and tail
position in armature space plus the stored custom properties.  A
freshly created edit bone has head and tail at the origin. -/
structure EditBone where
  name : String
  head : Vec3
  tail : Vec3
  props : BoneProps
deriving DecidableEq, Repr

/-- The perturbation `Vector((0, 0.00001, 0))` added to a zero-length
bone tail in `import_skeleton`. -/
def epsY : Vec3 :=
  ⟨0, 1 / 100000, 0⟩

/-- The head position a new bone receives: the tail of the parent bone
already in the armature when there is a parent (`bone.head =
parent.tail`), else the origin (the default head of a new edit bone,
which `import_skeleton` never moves for a parentless bone). -/
def headFor (acc : List EditBone) (bd : BoneData) : Vec3 :=
  match bd.parent with
  | some p => ((acc.get? p).map EditBone.tail).getD ⟨0, 0, 0⟩
  | none => ⟨0, 0, 0⟩

/-- The loop body of `import_skeleton` for one `bonedata`: set
`tail := rot * trans`, set the head from the parent, perturb the tail
by `epsY` if it coincides with the head, and store the custom
properties. -/
def buildEditBone (acc : List EditBone) (bd : BoneData) : EditBone :=
  let tail0 := rotate bd.rotation bd.position
  let hd := headFor acc bd
  let tl := if tail0 = hd then tail0 + epsY else tail0
  { name := bd.name
    head := hd
    tail := tl
    props :=
      { tX := bd.position.x, tY := bd.position.y, tZ := bd.position.z
        rW := bd.rotation.w, rX := bd.rotation.x, rY := bd.rotation.y
        rZ := bd.rotation.z } }

/-- The bone-creation loop of `import_skeleton`: bones are appended in
file order, each built against the armature state so far. -/
def buildBonesAux (acc : List EditBone) : List BoneData → List EditBone
  | [] => acc
  | bd :: rest => buildBonesAux (acc ++ [buildEditBone acc bd]) rest

/-- All edit bones after the creation loop of `import_skeleton`,
before the final mirror transform. -/
def buildBones (bds : List BoneData) : List EditBone :=
  buildBonesAux [] bds

/-- The single global transform applied after the loop:
`transform.resize(value=(1, 1, -1))` followed by `transform_apply`
scales the whole armature by -1 along Z, negating the Z coordinate of
every bone position. -/
def mirrorZ (v : Vec3) : Vec3 :=
  ⟨v.x, v.y, -v.z⟩

/-- Effect of the applied global mirror on one edit bone: head and tail
are reflected, name and stored custom properties are untouched. -/
def applyReflection (b : EditBone) : EditBone :=
  { b with head := mirrorZ b.head, tail := mirrorZ b.tail }

/-- `ImportGMDC.import_skeleton`: build all bones from the bone data,
then mirror the whole armature along Z once. -/
def importSkeleton (bds : List BoneData) : List EditBone :=
  (buildBones bds).map applyReflection

/-- One mesh group handed to `do_import` by the group assembler
(`blender_model.BlenderModel`): vertex positions, face index lists,
per-vertex normals and UV coordinates, and per-vertex bone index and
bone weight lists. -/
structure BlenderModel where
  name : String
  vertices : List Vec3
  faces : List (List Nat)
  normals : List Vec3
  uvs : List (ℚ × ℚ)
  bone_assign : List (List Nat)
  bone_weight : List (List ℚ)
deriving DecidableEq, Repr

/-- Modelled from the spec: `BoneData.bone_parent_table` of the missing
`bone_data` module is the ordered bone-group table; `do_import` only
reads the name component `val[0]` of each entry, so the table is
modelled as the ordered list of those names. -/
def gname (table : List String) (a : Nat) : String :=
  ((table.get? a).getD "")

/-- One `vertex_groups[...].add([i], w, ADD)` call issued by the weight
loop of `do_import`: an additive weight contribution for one vertex in
one named group. -/
structure WeightEvent where
  group : String
  vertex : Nat
  weight : ℚ
deriving DecidableEq, Repr

/-- Inner weight loop of `do_import` for vertex `i`: walk the bone
indices of the vertex with counter `j` and running `remainder`
(initially 1).  For `j ≠ 3` the explicit weight `bone_weight[i][j]` is
added and subtracted from the remainder; at `j = 3` the remainder
itself is added as the implied 4th weight. -/
def vertexEventsAux (table : List String) (i : Nat) (ws : List ℚ) :
    Nat → ℚ → List Nat → List WeightEvent
  | _, _, [] => []
  | j, remainder, a :: rest =>
    if j ≠ 3 then
      { group := gname table a, vertex := i, weight := ws.getD j 0 } ::
        vertexEventsAux table i ws (j + 1) (remainder - ws.getD j 0) rest
    else
      { group := gname table a, vertex := i, weight := remainder } ::
        vertexEventsAux table i ws (j + 1) remainder rest

/-- Outer weight loop of `do_import`: vertex `i` runs the inner loop on
`bone_assign[i]` and `bone_weight[i]`. -/
def weightEventsAux (table : List String) :
    Nat → List (List Nat) → List (List ℚ) → List WeightEvent
  | _, [], _ => []
  | _, _ :: _, [] => []
  | i, row :: rows, ws :: wss =>
    vertexEventsAux table i ws 0 1 row ++ weightEventsAux table (i + 1) rows wss

/-- Final weight of vertex `i` in group `g` after all ADD events: the
sum of the matching contributions (mode ADD accumulates). -/
def eventsWeight (evs : List WeightEvent) (g : String) (i : Nat) : ℚ :=
  (evs.filter (fun e => e.group == g && e.vertex == i)).foldl
    (fun s e => s + e.weight) 0

/-- The mesh object state `do_import` creates and populates before the
count-mismatch check: object created and linked into the scene,
vertices and faces from `from_pydata`, per-vertex normals, per-loop UV
coordinates, and one (empty) vertex group per bone-group-table entry. -/
structure MeshObject where
  name : String
  linked : Bool
  vertices : List Vec3
  faces : List (List Nat)
  normals : List Vec3
  uvLoops : List (List (ℚ × ℚ))
  vertexGroups : List String
deriving DecidableEq, Repr

/-- Mesh creation part of `do_import` (everything before the mismatch
check): create and link the object, load vertices and faces, copy
normals per vertex, copy the UV of `uvs[faces[i][j]]` to each loop and
create a vertex group per table entry. -/
def makeMesh (table : List String) (m : BlenderModel) : MeshObject :=
  { name := m.name
    linked := true
    vertices := m.vertices
    faces := m.faces
    normals := (List.range m.vertices.length).map (fun i => m.normals.getD i ⟨0, 0, 0⟩)
    uvLoops := m.faces.map (fun f => f.map (fun vi => m.uvs.getD vi (0, 0)))
    vertexGroups := table }

/-- The ERROR string `do_import` returns on a count mismatch, naming
the group. -/
def mismatchMessage (n : String) : String :=
  "ERROR: Group " ++ n ++ "\x27s vertex index counts don\x27t match."

/-- What one `do_import` call leaves behind: the created mesh object,
the weight events issued, and the returned message string. -/
structure GroupImport where
  mesh : MeshObject
  events : List WeightEvent
  message : String
deriving DecidableEq, Repr

/-- `ImportGMDC.do_import` for one group: the mesh object is created,
linked and populated unconditionally; then the vertex count is checked
against the bone_assign and bone_weight counts.  On mismatch the error
string is returned with no weight assigned; otherwise the weight loops
run and the success message is returned. -/
def doImport (table : List String) (m : BlenderModel) : GroupImport :=
  let mesh := makeMesh table m
  if m.vertices.length ≠ m.bone_assign.length ∨
      m.vertices.length ≠ m.bone_weight.length then
    { mesh := mesh, events := [], message := mismatchMessage m.name }
  else
    { mesh := mesh
      events := weightEventsAux table 0 m.bone_assign m.bone_weight
      message := "Group " ++ m.name ++ " imported.\n" }

/-- Return value of `ImportGMDC.execute`: `False` on an unsupported
header, else the set containing FINISHED. -/
inductive ExecResult where
  | failed : ExecResult
  | finished : ExecResult
deriving DecidableEq, Repr

/-- Everything `ImportGMDC.execute` does: its return value, whether
`load_data` ran, whether group assembly ran, the imported skeleton (if
any), the per-group import results, and the printed messages. -/
structure ExecuteOutcome where
  result : ExecResult
  chunksLoaded : Bool
  groupsAssembled : Bool
  skeleton : Option (List EditBone)
  groupResults : List GroupImport
  log : List String
deriving DecidableEq, Repr

/-- `ImportGMDC.execute`.  `load_header` of the missing `gmdc` module
is modelled from the spec: the header tag must be one of a small set of
supported signatures.  On an unsupported tag execute prints the
unsupported-version message and returns `False` at once; otherwise it
loads the chunk data, assembles the groups (`none` models the `False`
sentinel of `groups_from_gmdc`), imports the skeleton, and runs
`do_import` on each group, printing each returned message. -/
def execute (supported : List Nat) (fileType : Nat) (bds : List BoneData)
    (bModels : Option (List BlenderModel)) (table : List String) : ExecuteOutcome :=
  if supported.contains fileType then
    let results := match bModels with
      | none => []
      | some ms => ms.map (doImport table)
    { result := .finished
      chunksLoaded := true
      groupsAssembled := true
      skeleton := some (importSkeleton bds)
      groupResults := results
      log := results.map GroupImport.message }
  else
    { result := .failed
      chunksLoaded := false
      groupsAssembled := false
      skeleton := none
      groupResults := []
      log := ["Unsupported GMDC version " ++ toString fileType] }

/-- A root bone with a nonzero translation and identity rotation. -/
def c2bd0 : BoneData :=
  { name := "root", position := ⟨1, 0, 0⟩, rotation := ⟨1, 0, 0, 0⟩, parent := none }

/-- A child of `c2bd0` with translation along Y and identity rotation. -/
def c2bd1 : BoneData :=
  { name := "child", position := ⟨0, 1, 0⟩, rotation := ⟨1, 0, 0, 0⟩, parent := some 0 }

/-- A parentless bone whose tail lands closer to its head than the
zero-length perturbation epsilon, without coinciding with it. -/
def c6bd : BoneData :=
  { name := "tiny", position := ⟨0, 1 / 200000, 0⟩, rotation := ⟨1, 0, 0, 0⟩, parent := none }

/-- A parentless bone whose rotated translation is exactly the origin,
triggering the zero-length perturbation. -/
def c6wbd : BoneData :=
  { name := "w", position := ⟨0, 0, 0⟩, rotation := ⟨1, 0, 0, 0⟩, parent := none }

/-- A one-vertex group whose single vertex has four bone indices. -/
def c1m : BlenderModel :=
  { name := "grp", vertices := [⟨0, 0, 0⟩], faces := [], normals := [⟨0, 0, 1⟩]
    uvs := [(0, 0)], bone_assign := [[0, 1, 0, 1]]
    bone_weight := [[1 / 2, 1 / 4, 1 / 8]] }

/-- A one-vertex group listing the same bone group twice. -/
def c5m : BlenderModel :=
  { name := "dup", vertices := [⟨0, 0, 0⟩], faces := [], normals := [⟨0, 0, 1⟩]
    uvs := [(0, 0)], bone_assign := [[0, 0]], bone_weight := [[1 / 3, 1 / 5]] }

/-- A group whose vertex count (1) differs from its bone_assign count (0). -/
def c3m : BlenderModel :=
  { name := "bad", vertices := [⟨0, 0, 0⟩], faces := [], normals := [⟨0, 0, 1⟩]
    uvs := [(0, 0)], bone_assign := [], bone_weight := [[1]] }

/-- A well-formed one-vertex companion group for `c3m`. -/
def c3ok : BlenderModel :=
  { name := "good", vertices := [⟨0, 0, 0⟩], faces := [], normals := [⟨0, 0, 1⟩]
    uvs := [(0, 0)], bone_assign := [[0]], bone_weight := [[1]] }

/-- A parent edit bone with tail away from the origin, for the C2
amended witness armature. -/
def c2wb : EditBone :=
  { name := "pb", head := ⟨0, 0, 0⟩, tail := ⟨1, 0, 0⟩
    props := ⟨1, 0, 0, 1, 0, 0, 0⟩ }

/-- A group whose vertex count (1) differs from its bone_weight count (0),
with a face and UV data so the populated mesh state is visible. -/
def c9m : BlenderModel :=
  { name := "partial", vertices := [⟨0, 0, 0⟩, ⟨1, 0, 0⟩, ⟨0, 1, 0⟩]
    faces := [[0, 1, 2]], normals := [⟨0, 0, 1⟩, ⟨0, 0, 1⟩, ⟨0, 0, 1⟩]
    uvs := [(0, 0), (1, 0), (0, 1)], bone_assign := [[0], [0], [0]]
    bone_weight := [] }

/-- Componentwise form of vector addition. -/
theorem Vec3.add_def (a b : Vec3) :
    a + b = ⟨a.x + b.x, a.y + b.y, a.z + b.z⟩ := rfl

/-- Componentwise form of vector subtraction. -/
theorem Vec3.sub_def (a b : Vec3) :
    a - b = ⟨a.x - b.x, a.y - b.y, a.z - b.z⟩ := rfl

/-- Every event emitted by the inner weight loop of vertex `i` is
tagged with vertex `i`. -/
theorem vertexEventsAux_vertex (table : List String) (i : Nat) (ws : List ℚ) :
    ∀ (row : List Nat) (j : Nat) (r : ℚ) (e : WeightEvent),
      e ∈ vertexEventsAux table i ws j r row → e.vertex = i := by
  intro row
  induction row with
  | nil => intro j r e h; simp [vertexEventsAux] at h
  | cons a rest ih =>
    intro j r e h
    rw [vertexEventsAux] at h
    by_cases hj : j ≠ 3
    · rw [if_pos hj] at h
      rcases List.mem_cons.mp h with h1 | h2
      · rw [h1]
      · exact ih _ _ _ h2
    · rw [if_neg hj] at h
      rcases List.mem_cons.mp h with h1 | h2
      · rw [h1]
      · exact ih _ _ _ h2

/-- Every event emitted by the outer weight loop started at vertex
counter `k` is tagged with a vertex index at least `k`. -/
theorem weightEventsAux_vertex_ge (table : List String) :
    ∀ (rows : List (List Nat)) (wss : List (List ℚ)) (k : Nat) (e : WeightEvent),
      e ∈ weightEventsAux table k rows wss → k ≤ e.vertex := by
  intro rows
  induction rows with
  | nil => intro wss k e h; simp [weightEventsAux] at h
  | cons row rest ih =>
    intro wss k e h
    cases wss with
    | nil => simp [weightEventsAux] at h
    | cons ws wss =>
      rw [weightEventsAux] at h
      rcases List.mem_append.mp h with h1 | h2
      · exact le_of_eq (vertexEventsAux_vertex table k ws row 0 1 e h1).symm
      · exact Nat.le_of_succ_le (ih wss (k + 1) e h2)

/-- Filtering the events of the outer weight loop to vertex `k + d`
yields exactly the inner-loop events of row `d`. -/
theorem weightEventsAux_filter (table : List String) :
    ∀ (rows : List (List Nat)) (d k : Nat) (wss : List (List ℚ))
      (row : List Nat) (ws : List ℚ),
      rows.get? d = some row → wss.get? d = some ws →
      (weightEventsAux table k rows wss).filter (fun e => e.vertex == k + d) =
        vertexEventsAux table (k + d) ws 0 1 row := by
  intro rows
  induction rows with
  | nil => intro d k wss row ws h1 h2; simp at h1
  | cons r0 rest ih =>
    intro d k wss row ws h1 h2
    cases wss with
    | nil => simp at h2
    | cons ws0 wss =>
      cases d with
      | zero =>
        rw [List.get?_cons_zero] at h1 h2
        injection h1 with h1e
        injection h2 with h2e
        subst h1e
        subst h2e
        rw [weightEventsAux, List.filter_append]
        have hfst : (vertexEventsAux table k ws0 0 1 r0).filter
            (fun e => e.vertex == k + 0) = vertexEventsAux table k ws0 0 1 r0 := by
          apply List.filter_eq_self.mpr
          intro e he
          simp [vertexEventsAux_vertex table k ws0 r0 0 1 e he]
        have hsnd : (weightEventsAux table (k + 1) rest wss).filter
            (fun e => e.vertex == k + 0) = [] := by
          apply List.filter_eq_nil_iff.mpr
          intro e he
          have := weightEventsAux_vertex_ge table rest wss (k + 1) e he
          simp only [beq_iff_eq]
          omega
        rw [hfst, hsnd, List.append_nil, Nat.add_zero]
      | succ d =>
        rw [List.get?_cons_succ] at h1 h2
        rw [weightEventsAux, List.filter_append]
        have hfst : (vertexEventsAux table k ws0 0 1 r0).filter
            (fun e => e.vertex == k + (d + 1)) = [] := by
          apply List.filter_eq_nil_iff.mpr
          intro e he
          have := vertexEventsAux_vertex table k ws0 r0 0 1 e he
          simp only [beq_iff_eq]
          omega
        have hkd : k + (d + 1) = (k + 1) + d := by omega
        rw [hfst, List.nil_append, hkd]
        exact ih d (k + 1) wss row ws h1 h2

/-- The inner weight loop never reaches counter 3 when the bone index
list is short enough: every emitted weight is the explicit
`bone_weight` entry at its position. -/
theorem vertexEventsAux_explicit (table : List String) (i : Nat) (ws : List ℚ) :
    ∀ (row : List Nat) (j : Nat) (r : ℚ), j + row.length ≤ 3 →
      vertexEventsAux table i ws j r row =
        (row.enumFrom j).map
          (fun p => { group := gname table p.2, vertex := i, weight := ws.getD p.1 0 }) := by
  intro row
  induction row with
  | nil => intro j r h; simp [vertexEventsAux, List.enumFrom]
  | cons a rest ih =>
    intro j r h
    rw [List.length_cons] at h
    have hj : j ≠ 3 := by omega
    rw [vertexEventsAux, if_pos hj, List.enumFrom, List.map]
    rw [ih (j + 1) (r - ws.getD j 0) (by omega)]

/-- The head an edit bone gets in `import_skeleton`. -/
theorem buildEditBone_head (acc : List EditBone) (bd : BoneData) :
    (buildEditBone acc bd).head = headFor acc bd := rfl

/-- The tail an edit bone gets in `import_skeleton`: the rotated local
translation, perturbed by `epsY` when it coincides with the head. -/
theorem buildEditBone_tail (acc : List EditBone) (bd : BoneData) :
    (buildEditBone acc bd).tail =
      if rotate bd.rotation bd.position = headFor acc bd
      then rotate bd.rotation bd.position + epsY
      else rotate bd.rotation bd.position := rfl

/-- The stored custom properties of an edit bone are the raw local
translation and rotation of its bone record. -/
theorem buildEditBone_props (acc : List EditBone) (bd : BoneData) :
    (buildEditBone acc bd).props =
      { tX := bd.position.x, tY := bd.position.y, tZ := bd.position.z
        rW := bd.rotation.w, rX := bd.rotation.x, rY := bd.rotation.y
        rZ := bd.rotation.z } := rfl

/-- After the loop body, a bone never has its tail at its head. -/
theorem buildEditBone_tail_ne_head (acc : List EditBone) (bd : BoneData) :
    (buildEditBone acc bd).tail ≠ (buildEditBone acc bd).head := by
  rw [buildEditBone_tail, buildEditBone_head]
  by_cases hb : rotate bd.rotation bd.position = headFor acc bd
  · rw [if_pos hb, hb]
    intro hcontra
    have hy := congrArg Vec3.y hcontra
    have : (headFor acc bd).y + 1 / 100000 = (headFor acc bd).y := hy
    linarith
  · rw [if_neg hb]
    exact hb

/-- Every bone produced by the creation loop has its tail away from
its head, provided the bones already in the armature do. -/
theorem buildBonesAux_tail_ne_head :
    ∀ (bds : List BoneData) (acc : List EditBone),
      (∀ b ∈ acc, b.tail ≠ b.head) →
      ∀ b ∈ buildBonesAux acc bds, b.tail ≠ b.head := by
  intro bds
  induction bds with
  | nil => intro acc hacc b hb; exact hacc b hb
  | cons bd rest ih =>
    intro acc hacc b hb
    rw [buildBonesAux] at hb
    refine ih _ ?_ b hb
    intro b2 hb2
    rcases List.mem_append.mp hb2 with h1 | h2
    · exact hacc b2 h1
    · rw [List.mem_singleton.mp h2]
      exact buildEditBone_tail_ne_head acc bd

/-- The global Z mirror is an involution on vectors. -/
theorem mirrorZ_mirrorZ (v : Vec3) : mirrorZ (mirrorZ v) = v := by
  simp [mirrorZ]

/-- Claim C4: for every input whose header tag is not a supported signature,
execute fails immediately after the header check and reports the
unsupported version, with no chunk data loaded, no groups assembled,
and no skeleton or mesh objects created. -/
theorem c4_unsupported_header_aborts (supported : List Nat) (fileType : Nat)
    (bds : List BoneData) (bModels : Option (List BlenderModel)) (table : List String)
    (hft : supported.contains fileType = false) :
    execute supported fileType bds bModels table =
      { result := .failed, chunksLoaded := false, groupsAssembled := false
        skeleton := none, groupResults := []
        log := ["Unsupported GMDC version " ++ toString fileType] } := by
  unfold execute
  rw [if_neg (by simpa using hft)]

/-- Witness for C4 at a concrete unsupported header tag. -/
theorem c4_unsupported_header_aborts_witness :
    execute [5] 7 [] none [] =
      { result := .failed, chunksLoaded := false, groupsAssembled := false
        skeleton := none, groupResults := []
        log := ["Unsupported GMDC version " ++ toString 7] } :=
  c4_unsupported_header_aborts [5] 7 [] none [] rfl

/-- Claim C8: when group assembly returns the failure sentinel (no renderable
geometry), the import does not abort: execute still finishes, the
skeleton is built and imported, and only the per-group mesh import is
skipped. -/
theorem c8_no_geometry_skeleton_still_imported (supported : List Nat)
    (fileType : Nat) (bds : List BoneData) (table : List String)
    (hft : supported.contains fileType = true) :
    (execute supported fileType bds none table).result = ExecResult.finished ∧
    (execute supported fileType bds none table).skeleton = some (importSkeleton bds) ∧
    (execute supported fileType bds none table).groupResults = [] := by
  unfold execute
  rw [if_pos hft]
  exact ⟨rfl, rfl, rfl⟩

/-- Witness for C8 at a concrete supported header and bone list. -/
theorem c8_no_geometry_skeleton_still_imported_witness :
    (execute [7] 7 [c6wbd] none []).result = ExecResult.finished ∧
    (execute [7] 7 [c6wbd] none []).skeleton = some (importSkeleton [c6wbd]) ∧
    (execute [7] 7 [c6wbd] none []).groupResults = [] :=
  c8_no_geometry_skeleton_still_imported [7] 7 [c6wbd] [] rfl

/-- Claim C3: a group whose vertex count differs from its bone_assign or
bone_weight count makes do_import return an error naming that group,
with no weight event issued for it; execute still finishes and maps
do_import over every group independently, so the other groups of the
same file import exactly as they would alone. -/
theorem c3_mismatch_isolated (supported : List Nat) (fileType : Nat)
    (bds : List BoneData) (table : List String) (m : BlenderModel)
    (ms : List BlenderModel) (k : Nat)
    (hft : supported.contains fileType = true)
    (hmis : m.vertices.length ≠ m.bone_assign.length ∨
      m.vertices.length ≠ m.bone_weight.length) :
    (doImport table m).events = [] ∧
    (doImport table m).message =
      "ERROR: Group " ++ m.name ++ "\x27s vertex index counts don\x27t match." ∧
    (execute supported fileType bds (some ms) table).result = ExecResult.finished ∧
    (execute supported fileType bds (some ms) table).groupResults.get? k =
      (ms.get? k).map (doImport table) := by
  refine ⟨?_, ?_, ?_, ?_⟩
  · unfold doImport
    rw [if_pos hmis]
  · unfold doImport
    rw [if_pos hmis]
    rfl
  · unfold execute
    rw [if_pos hft]
  · unfold execute
    rw [if_pos hft]
    simp [List.get?_map]

/-- Witness for C3: a mismatching group (1 vertex, 0 bone_assign rows)
next to a valid group in the same file. -/
theorem c3_mismatch_isolated_witness :
    (doImport ["b0"] c3m).events = [] ∧
    (doImport ["b0"] c3m).message =
      "ERROR: Group " ++ c3m.name ++ "\x27s vertex index counts don\x27t match." ∧
    (execute [7] 7 [] (some [c3m, c3ok]) ["b0"]).result = ExecResult.finished ∧
    (execute [7] 7 [] (some [c3m, c3ok]) ["b0"]).groupResults.get? 1 =
      ([c3m, c3ok].get? 1).map (doImport ["b0"]) :=
  c3_mismatch_isolated [7] 7 [] ["b0"] c3m [c3m, c3ok] 1 rfl (Or.inl (by decide))

/-- Claim C9: the count-mismatch check of do_import is not atomic with
respect to scene state: when the error is returned for a group, the
mesh object of that group has already been created, linked, and
populated with vertices, faces, normals, UV loops and (empty) vertex
groups, and none of that is rolled back. -/
theorem c9_mesh_state_before_mismatch_check (table : List String) (m : BlenderModel)
    (hmis : m.vertices.length ≠ m.bone_assign.length ∨
      m.vertices.length ≠ m.bone_weight.length) :
    (doImport table m).mesh = makeMesh table m ∧
    (doImport table m).mesh.linked = true ∧
    (doImport table m).mesh.vertices = m.vertices ∧
    (doImport table m).mesh.faces = m.faces ∧
    (doImport table m).mesh.normals =
      (List.range m.vertices.length).map (fun i => m.normals.getD i ⟨0, 0, 0⟩) ∧
    (doImport table m).mesh.uvLoops =
      m.faces.map (fun f => f.map (fun vi => m.uvs.getD vi (0, 0))) ∧
    (doImport table m).mesh.vertexGroups = table ∧
    (doImport table m).events = [] ∧
    (doImport table m).message = mismatchMessage m.name := by
  unfold doImport
  rw [if_pos hmis]
  exact ⟨rfl, rfl, rfl, rfl, rfl, rfl, rfl, rfl, rfl⟩

/-- Witness for C9: a 3-vertex group with a face, normals and UVs whose
bone_weight list is empty. -/
theorem c9_mesh_state_before_mismatch_check_witness :
    (doImport ["b0"] c9m).mesh = makeMesh ["b0"] c9m ∧
    (doImport ["b0"] c9m).mesh.linked = true ∧
    (doImport ["b0"] c9m).mesh.vertices = c9m.vertices ∧
    (doImport ["b0"] c9m).mesh.faces = c9m.faces ∧
    (doImport ["b0"] c9m).mesh.normals =
      (List.range c9m.vertices.length).map (fun i => c9m.normals.getD i ⟨0, 0, 0⟩) ∧
    (doImport ["b0"] c9m).mesh.uvLoops =
      c9m.faces.map (fun f => f.map (fun vi => c9m.uvs.getD vi (0, 0))) ∧
    (doImport ["b0"] c9m).mesh.vertexGroups = ["b0"] ∧
    (doImport ["b0"] c9m).events = [] ∧
    (doImport ["b0"] c9m).message = mismatchMessage c9m.name :=
  c9_mesh_state_before_mismatch_check ["b0"] c9m (Or.inr (by decide))

/-- Claim C1: for a vertex with a 4th bone index, do_import adds the three
explicit weights and then an implied 4th weight equal to 1 minus their
sum, assigned to the vertex group named by the 4th bone index; the
explicit weights and the implied one sum to exactly 1. -/
theorem c1_implied_fourth_weight (table : List String) (m : BlenderModel)
    (i a b c d : Nat) (w0 w1 w2 : ℚ)
    (hA : m.vertices.length = m.bone_assign.length)
    (hW : m.vertices.length = m.bone_weight.length)
    (hrow : m.bone_assign.get? i = some [a, b, c, d])
    (hws : m.bone_weight.get? i = some [w0, w1, w2]) :
    (doImport table m).events.filter (fun e => e.vertex == i) =
      [{ group := gname table a, vertex := i, weight := w0 },
       { group := gname table b, vertex := i, weight := w1 },
       { group := gname table c, vertex := i, weight := w2 },
       { group := gname table d, vertex := i, weight := 1 - (w0 + w1 + w2) }] ∧
    (w0 + w1 + w2) + (1 - (w0 + w1 + w2)) = 1 := by
  constructor
  · have hev : (doImport table m).events =
        weightEventsAux table 0 m.bone_assign m.bone_weight := by
      unfold doImport
      rw [if_neg (by push_neg; exact ⟨hA, hW⟩)]
    rw [hev]
    have h := weightEventsAux_filter table m.bone_assign i 0 m.bone_weight
      [a, b, c, d] [w0, w1, w2] hrow hws
    simp only [Nat.zero_add] at h
    rw [h]
    simp [vertexEventsAux, List.getD]
    ring_nf
  · ring

/-- Witness for C1 at a concrete one-vertex group with four bone
indices and explicit weights 1/2, 1/4, 1/8. -/
theorem c1_implied_fourth_weight_witness :
    (doImport ["g0", "g1"] c1m).events.filter (fun e => e.vertex == 0) =
      [{ group := gname ["g0", "g1"] 0, vertex := 0, weight := 1 / 2 },
       { group := gname ["g0", "g1"] 1, vertex := 0, weight := 1 / 4 },
       { group := gname ["g0", "g1"] 0, vertex := 0, weight := 1 / 8 },
       { group := gname ["g0", "g1"] 1, vertex := 0,
         weight := 1 - (1 / 2 + 1 / 4 + 1 / 8) }] ∧
    ((1 : ℚ) / 2 + 1 / 4 + 1 / 8) + (1 - (1 / 2 + 1 / 4 + 1 / 8)) = 1 :=
  c1_implied_fourth_weight ["g0", "g1"] c1m 0 0 1 0 1 (1 / 2) (1 / 4) (1 / 8)
    rfl rfl rfl rfl

/-- Claim C5: explicit weights are applied additively: a vertex listing the
same bone group twice ends up with the sum of both contributions, not
the later one alone. -/
theorem c5_weights_accumulate (table : List String) (m : BlenderModel)
    (a : Nat) (w0 w1 : ℚ)
    (hv : m.vertices.length = 1)
    (hA : m.bone_assign = [[a, a]])
    (hW : m.bone_weight = [[w0, w1]]) :
    eventsWeight (doImport table m).events (gname table a) 0 = w0 + w1 := by
  have hev : (doImport table m).events =
      weightEventsAux table 0 m.bone_assign m.bone_weight := by
    unfold doImport
    rw [if_neg (by push_neg; constructor <;> simp [hv, hA, hW])]
  rw [hev, hA, hW]
  simp [weightEventsAux, vertexEventsAux, eventsWeight, List.getD]

/-- Witness for C5: duplicate bone group with weights 1/3 and 1/5. -/
theorem c5_weights_accumulate_witness :
    eventsWeight (doImport ["a0"] c5m).events (gname ["a0"] 0) 0 = 1 / 3 + 1 / 5 :=
  c5_weights_accumulate ["a0"] c5m 0 (1 / 3) (1 / 5) rfl rfl rfl

/-- Claim C10: the implied remainder weight is only issued at loop counter
j = 3: a vertex with at most 3 bone indices gets exactly its explicit
weights (no implied 4th weight), and a vertex with 4 bone indices gets
three explicit weights read from entries 0, 1, 2 of its bone_weight row
plus the remainder for the 4th index. -/
theorem c10_fourth_entry_gates_remainder (table : List String) (i : Nat)
    (ws : List ℚ) (assigns : List Nat) (a b c d : Nat)
    (h3 : assigns.length ≤ 3) :
    vertexEventsAux table i ws 0 1 assigns =
      (assigns.enumFrom 0).map
        (fun p => { group := gname table p.2, vertex := i, weight := ws.getD p.1 0 }) ∧
    vertexEventsAux table i ws 0 1 [a, b, c, d] =
      [{ group := gname table a, vertex := i, weight := ws.getD 0 0 },
       { group := gname table b, vertex := i, weight := ws.getD 1 0 },
       { group := gname table c, vertex := i, weight := ws.getD 2 0 },
       { group := gname table d, vertex := i,
         weight := 1 - (ws.getD 0 0 + ws.getD 1 0 + ws.getD 2 0) }] := by
  constructor
  · exact vertexEventsAux_explicit table i ws assigns 0 1 (by omega)
  · simp [vertexEventsAux]
    ring

/-- Witness for C10 at a two-index vertex and a four-index vertex with
concrete weights. -/
theorem c10_fourth_entry_gates_remainder_witness :
    vertexEventsAux ["g0", "g1"] 0 [1 / 2, 1 / 3, 1 / 7] 0 1 [0, 1] =
      (([0, 1] : List Nat).enumFrom 0).map
        (fun p => { group := gname ["g0", "g1"] p.2, vertex := 0,
                    weight := ([1 / 2, 1 / 3, 1 / 7] : List ℚ).getD p.1 0 }) ∧
    vertexEventsAux ["g0", "g1"] 0 [1 / 2, 1 / 3, 1 / 7] 0 1 [0, 1, 0, 1] =
      [{ group := gname ["g0", "g1"] 0, vertex := 0,
         weight := ([1 / 2, 1 / 3, 1 / 7] : List ℚ).getD 0 0 },
       { group := gname ["g0", "g1"] 1, vertex := 0,
         weight := ([1 / 2, 1 / 3, 1 / 7] : List ℚ).getD 1 0 },
       { group := gname ["g0", "g1"] 0, vertex := 0,
         weight := ([1 / 2, 1 / 3, 1 / 7] : List ℚ).getD 2 0 },
       { group := gname ["g0", "g1"] 1, vertex := 0,
         weight := 1 - (([1 / 2, 1 / 3, 1 / 7] : List ℚ).getD 0 0 +
           ([1 / 2, 1 / 3, 1 / 7] : List ℚ).getD 1 0 +
           ([1 / 2, 1 / 3, 1 / 7] : List ℚ).getD 2 0) }] :=
  c10_fourth_entry_gates_remainder ["g0", "g1"] 0 [1 / 2, 1 / 3, 1 / 7]
    [0, 1] 0 1 0 1 (by decide)

/-- The global Z mirror on vectors is injective. -/
theorem mirrorZ_inj (a b : Vec3) (h : mirrorZ a = mirrorZ b) : a = b := by
  have h2 := congrArg mirrorZ h
  rwa [mirrorZ_mirrorZ, mirrorZ_mirrorZ] at h2

/-- Claim C7: the skeleton reflection is one global transform applied once
after all bones are built: every final bone is the corresponding built
bone with head and tail mirrored along the single axis Z, and the
mirror changes neither the bone name nor the stored per-bone
translation/rotation custom properties; applying it twice is the
identity. -/
theorem c7_single_global_mirror (bds : List BoneData) (i : Nat) (b : EditBone) :
    (importSkeleton bds).get? i = ((buildBones bds).get? i).map applyReflection ∧
    (applyReflection b).name = b.name ∧
    (applyReflection b).props = b.props ∧
    (applyReflection b).head = ⟨b.head.x, b.head.y, -b.head.z⟩ ∧
    (applyReflection b).tail = ⟨b.tail.x, b.tail.y, -b.tail.z⟩ ∧
    applyReflection (applyReflection b) = b := by
  refine ⟨?_, rfl, rfl, rfl, rfl, ?_⟩
  · simp [importSkeleton, List.get?_map]
  · simp [applyReflection, mirrorZ_mirrorZ]

/-- Counterexample to claim C2: with a root bone at translation (1,0,0) and a
child bone at local translation (0,1,0), both with identity rotation,
the imported tail of the child is (0,1,0) — the rotated local
translation alone — and not parent tail + rotated local translation,
which would be (1,1,0). -/
theorem c2_counterexample :
    ((importSkeleton [c2bd0, c2bd1]).get? 0).map EditBone.tail = some ⟨1, 0, 0⟩ ∧
    ((importSkeleton [c2bd0, c2bd1]).get? 1).map EditBone.head = some ⟨1, 0, 0⟩ ∧
    ((importSkeleton [c2bd0, c2bd1]).get? 1).map EditBone.tail = some ⟨0, 1, 0⟩ ∧
    rotate c2bd1.rotation c2bd1.position = ⟨0, 1, 0⟩ ∧
    (⟨0, 1, 0⟩ : Vec3) ≠ (⟨1, 0, 0⟩ : Vec3) + ⟨0, 1, 0⟩ := by
  norm_num [importSkeleton, buildBones, buildBonesAux, buildEditBone, headFor,
    rotate, epsY, mirrorZ, applyReflection, Vec3.smul, Vec3.cross, Vec3.add_def,
    c2bd0, c2bd1]

/-- Claim C2 as amended: a bone's tail is its local rotation applied to its
local translation alone (perturbed by epsY when it coincides with the
head), independent of the parent position; its head is the parent's
tail, and a parentless bone's head is the origin. -/
theorem c2_amended_head_tail (acc : List EditBone) (bd bd2 : BoneData) (p : Nat)
    (hp : bd.parent = some p) (hlt : p < acc.length) (h2 : bd2.parent = none) :
    (buildEditBone acc bd).head = (acc.get ⟨p, hlt⟩).tail ∧
    (buildEditBone acc bd2).head = ⟨0, 0, 0⟩ ∧
    ((buildEditBone acc bd).tail = rotate bd.rotation bd.position ∨
     (buildEditBone acc bd).tail = rotate bd.rotation bd.position + epsY) := by
  refine ⟨?_, ?_, ?_⟩
  · rw [buildEditBone_head]
    simp [headFor, hp, List.getElem?_eq_getElem hlt]
  · rw [buildEditBone_head]
    simp [headFor, h2]
  · rw [buildEditBone_tail]
    by_cases hb : rotate bd.rotation bd.position = headFor acc bd
    · right
      rw [if_pos hb]
    · left
      rw [if_neg hb]

/-- Witness for the amended C2 at a concrete parent bone, child record
and parentless record. -/
theorem c2_amended_head_tail_witness :
    (buildEditBone [c2wb] c2bd1).head = ([c2wb].get ⟨0, by decide⟩).tail ∧
    (buildEditBone [c2wb] c2bd0).head = ⟨0, 0, 0⟩ ∧
    ((buildEditBone [c2wb] c2bd1).tail = rotate c2bd1.rotation c2bd1.position ∨
     (buildEditBone [c2wb] c2bd1).tail = rotate c2bd1.rotation c2bd1.position + epsY) :=
  c2_amended_head_tail [c2wb] c2bd1 c2bd0 0 rfl (by decide) rfl

/-- Counterexample to claim C6: a parentless bone whose rotated translation is
(0, 1/200000, 0) is not perturbed (tail and head differ already), yet
its tail differs from its head by less than the epsilon 1/100000 in
every coordinate and in squared distance; so not every bone ends at
least epsilon away from its head. -/
theorem c6_counterexample :
    ((importSkeleton [c6bd]).get? 0).map EditBone.head = some ⟨0, 0, 0⟩ ∧
    ((importSkeleton [c6bd]).get? 0).map EditBone.tail = some ⟨0, 1 / 200000, 0⟩ ∧
    (⟨0, 1 / 200000, 0⟩ : Vec3) ≠ ⟨0, 0, 0⟩ ∧
    (0 : ℚ) < 1 / 200000 - 0 ∧
    (1 : ℚ) / 200000 - 0 < 1 / 100000 ∧
    ((1 : ℚ) / 200000 - 0) * ((1 : ℚ) / 200000 - 0) <
      ((1 : ℚ) / 100000) * ((1 : ℚ) / 100000) := by
  norm_num [importSkeleton, buildBones, buildBonesAux, buildEditBone, headFor,
    rotate, epsY, mirrorZ, applyReflection, Vec3.smul, Vec3.cross, Vec3.add_def,
    c6bd]

/-- Claim C6 as amended: a bone whose computed tail coincides with its head has
its tail moved by exactly epsY, and consequently every imported bone
has its tail different from its head (though an unperturbed bone may
be closer than epsilon). -/
theorem c6_amended_perturbation (bds : List BoneData) (b : EditBone)
    (acc : List EditBone) (bd : BoneData)
    (hmem : b ∈ importSkeleton bds)
    (hzero : rotate bd.rotation bd.position = headFor acc bd) :
    b.tail ≠ b.head ∧
    (buildEditBone acc bd).tail = headFor acc bd + epsY := by
  constructor
  · rcases List.mem_map.mp hmem with ⟨b0, hb0, rfl⟩
    have h0 := buildBonesAux_tail_ne_head bds []
      (by intro x hx; exact absurd hx (List.not_mem_nil x)) b0 hb0
    simp only [applyReflection]
    intro hcontra
    exact h0 (mirrorZ_inj _ _ hcontra)
  · rw [buildEditBone_tail, if_pos hzero, hzero]

/-- Witness for the amended C6: a bone whose rotated translation is the
origin gets its tail moved to exactly epsY, and the imported bone has
tail different from head. -/
theorem c6_amended_perturbation_witness :
    ({ name := "w", head := ⟨0, 0, 0⟩, tail := ⟨0, 1 / 100000, 0⟩
       props := ⟨0, 0, 0, 1, 0, 0, 0⟩ } : EditBone).tail ≠
      ({ name := "w", head := ⟨0, 0, 0⟩, tail := ⟨0, 1 / 100000, 0⟩
         props := ⟨0, 0, 0, 1, 0, 0, 0⟩ } : EditBone).head ∧
    (buildEditBone [] c6wbd).tail = headFor [] c6wbd + epsY :=
  c6_amended_perturbation [c6wbd]
    { name := "w", head := ⟨0, 0, 0⟩, tail := ⟨0, 1 / 100000, 0⟩
      props := ⟨0, 0, 0, 1, 0, 0, 0⟩ }
    [] c6wbd
    (by simp [importSkeleton, buildBones, buildBonesAux, buildEditBone, headFor,
      rotate, epsY, mirrorZ, applyReflection, Vec3.smul, Vec3.cross, Vec3.add_def,
      c6wbd])
    (by simp [rotate, headFor, Vec3.smul, Vec3.cross, Vec3.add_def, c6wbd])
